import Mathlib

/-!
Shallow embedding of areq.py, an asynchronous link crawler: fetch pages,
extract href targets, resolve them against the page URL, and append
tab-separated records to a shared output file.
-/

namespace Areq

/-- Converts a string literal to the character-list form used throughout
this development. -/
def str (s : String) : List Char :=
  s.data

/-- Literal part of the pattern HREF_RE, which captures non-greedily
between the double quotes that follow the marker. -/
def hrefMarker : List Char :=
  ['h', 'r', 'e', 'f', '=', '"']

/-- Non-greedy capture of the regular expression: the shortest run of
characters other than a newline, terminated by a closing double quote.
Returns the capture and the remainder after the closing quote; fails when
a newline or the end of input arrives before a closing quote. -/
def hrefCapture : List Char → Option (List Char × List Char)
  | [] => none
  | c :: rest =>
    if c = '"' then some ([], rest)
    else if c = '\n' then none
    else
      match hrefCapture rest with
      | some (cap, rem) => some (c :: cap, rem)
      | none => none

/-- Fueled scan embedding re.findall with the pattern HREF_RE: at each
position where the marker matches and a capture closes, record the capture
and resume after the closing quote; otherwise advance one character, as
the regular expression engine does after a failed match attempt. -/
def hrefFindallAux : Nat → List Char → List (List Char)
  | 0, _ => []
  | _ + 1, [] => []
  | fuel + 1, c :: rest =>
    if hrefMarker.isPrefixOf (c :: rest) then
      match hrefCapture ((c :: rest).drop 6) with
      | some (cap, rem) => cap :: hrefFindallAux fuel rem
      | none => hrefFindallAux fuel rest
    else hrefFindallAux fuel rest

/-- Embedding of HREF_RE.findall over a page body; the fuel bounds the
number of scan steps and one more than the input length always suffices,
since every step consumes at least one character. -/
def hrefFindall (body : List Char) : List (List Char) :=
  hrefFindallAux (body.length + 1) body

/-- Characters allowed after the first character of a URL scheme,
mirroring the scheme grammar used by the standard URL splitter. -/
def schemeChar (c : Char) : Bool :=
  c.isAlphanum || c = '+' || c = '-' || c = '.'

/-- Lowercases a character list, as the standard URL splitter does to a
parsed scheme. -/
def lowerChars (l : List Char) : List Char :=
  l.map Char.toLower

/-- Splits a leading scheme from a URL when one is present: a nonempty
alphabetic-initial run of scheme characters terminated by a colon. Models
the scheme handling of urllib.parse.urlsplit. -/
def splitScheme (s : List Char) : Option (List Char × List Char) :=
  if s.contains ':' then
    let pre := s.takeWhile (fun c => c ≠ ':')
    let post := (s.dropWhile (fun c => c ≠ ':')).drop 1
    match pre with
    | [] => none
    | c :: cs => if c.isAlpha && cs.all schemeChar then some (lowerChars pre, post) else none
  else none

/-- Splits the network location from the material following a double
slash, raising the Invalid IPv6 URL error of urllib.parse.urlsplit when a
square bracket is unmatched in the location. Query and fragment parts are
folded into the path in this model; the inputs of this development carry
neither. -/
def splitNetloc (s : List Char) : Except (List Char) (List Char × List Char) :=
  let netloc := s.takeWhile (fun c => c ≠ '/')
  let path := s.dropWhile (fun c => c ≠ '/')
  if (netloc.contains '[' && !netloc.contains ']')
      || (netloc.contains ']' && !netloc.contains '[') then
    .error (str "Invalid IPv6 URL")
  else
    .ok (netloc, path)

/-- Result of splitting a URL into scheme, network location and path.
Models the split result of urllib.parse.urlsplit restricted to the fields
this program uses. -/
structure SplitUrl where
  scheme : List Char
  netloc : List Char
  path : List Char
deriving DecidableEq

/-- Embedding of urllib.parse.urlsplit restricted to scheme, network
location and path; it can fail with a ValueError on an unmatched square
bracket in the network location. -/
def urlsplit (s : List Char) : Except (List Char) SplitUrl :=
  let p := match splitScheme s with
    | some (sch, rest) => (sch, rest)
    | none => (([] : List Char), s)
  match p.2 with
  | '/' :: '/' :: r =>
    match splitNetloc r with
    | .ok (netloc, path) => .ok ⟨p.1, netloc, path⟩
    | .error e => .error e
  | rest => .ok ⟨p.1, [], rest⟩

/-- Reassembles a split URL, mirroring urllib.parse.urlunsplit on the
fields modelled here. -/
def urlunsplit (scheme netloc path : List Char) : List Char :=
  let tail := if netloc ≠ [] then '/' :: '/' :: (netloc ++ path) else path
  if scheme ≠ [] then scheme ++ ':' :: tail else tail

/-- Keeps a path up to and including its last slash, used when merging a
relative reference with the base path. -/
def dropLastSegment (p : List Char) : List Char :=
  (p.reverse.dropWhile (fun c => c ≠ '/')).reverse

/-- Merges a relative reference path with the base URL path, following
the merge rule of standard base-URL resolution. Dot-segment
normalization is not modelled; the inputs of this development contain no
dot segments. -/
def mergePath (bnetloc bpath upath : List Char) : List Char :=
  if bnetloc ≠ [] && bpath = [] then '/' :: upath
  else if bpath.contains '/' then dropLastSegment bpath ++ upath
  else upath

/-- Embedding of urllib.parse.urljoin on the URL shapes this program
handles: absolute references, protocol-relative references, rooted paths
and relative paths; it propagates the ValueError of urlsplit, which the
caller in areq.py catches and logs. -/
def urljoin (base link : List Char) : Except (List Char) (List Char) :=
  if base = [] then .ok link
  else if link = [] then .ok base
  else
    match urlsplit base with
    | .error e => .error e
    | .ok b =>
      match urlsplit link with
      | .error e => .error e
      | .ok u =>
        let scheme := if u.scheme = [] then b.scheme else u.scheme
        if scheme ≠ b.scheme then .ok link
        else if u.netloc ≠ [] then .ok (urlunsplit scheme u.netloc u.path)
        else if u.path = [] then .ok (urlunsplit scheme b.netloc b.path)
        else if u.path.head? = some '/' then .ok (urlunsplit scheme b.netloc u.path)
        else .ok (urlunsplit scheme b.netloc (mergePath b.netloc b.path u.path))

/-- One step of the extraction loop of parse in areq.py: resolve the
captured link against the page URL; on a resolution error the link is
logged and skipped, otherwise the absolute link is added to the found
set. The Python set is modelled as an insertion-ordered duplicate-free
list. -/
def addLink (url : List Char) (found : List (List Char)) (link : List Char) : List (List Char) :=
  match urljoin url link with
  | .error _ => found
  | .ok abs_link => if abs_link ∈ found then found else found ++ [abs_link]

/-- The extraction loop of parse in areq.py over an explicit list of
captured links, starting from the empty found set. -/
def parseLinks (url : List Char) (links : List (List Char)) : List (List Char) :=
  links.foldl (addLink url) []

/-- Link extraction of parse in areq.py on a successfully fetched body:
find all href captures and resolve each against the page URL. -/
def extractLinks (url body : List Char) : List (List Char) :=
  parseLinks url (hrefFindall body)

/-- Decides whether a captured link resolves against the page URL without
a resolution error. -/
def resolvesOk (url link : List Char) : Bool :=
  match urljoin url link with
  | .ok _ => true
  | .error _ => false

/-- Outcome of the single network round trip of fetch_html: a response
with a status and a body, a transport-level failure raising an aiohttp
client error, or any other exception. -/
inductive NetResult where
  | response (status : Nat) (body : List Char)
  | transportFail
  | otherFail
deriving DecidableEq

/-- Exceptions observable in the embedded program: aiohttp client errors
carrying an optional status, any other exception, a sink failure raised
while opening or appending to the output file, and the runtime error the
event loop raises when an already awaited coroutine is gathered again. -/
inductive PyExc where
  | clientError (status : Option Nat)
  | otherExc
  | sinkError
  | reuseCoroutine
deriving DecidableEq

/-- Embedding of fetch_html in areq.py: the GET either fails at transport
level, fails with some other exception, or yields a response on which
raise_for_status raises a client error for any status of four hundred or
more and otherwise returns the body text. -/
def fetch_html : NetResult → Except PyExc (List Char)
  | .response status body =>
    if status < 400 then .ok body else .error (.clientError (some status))
  | .transportFail => .error (.clientError none)
  | .otherFail => .error .otherExc

/-- Embedding of parse in areq.py: the found set starts empty; when
fetch_html raises, either except branch logs and returns the still-empty
found set; otherwise every href capture of the body is resolved and
accumulated. -/
def parse (url : List Char) (net : NetResult) : List (List Char) :=
  match fetch_html net with
  | .error _ => []
  | .ok html => extractLinks url html

/-- Decides whether the fetch of a pipeline succeeded. -/
def fetchOk (net : NetResult) : Bool :=
  match fetch_html net with
  | .ok _ => true
  | .error _ => false

/-- The output line write_one formats for one resolved link: the source
URL, a tab, the target URL and a newline. -/
def mkLine (url p : List Char) : List Char :=
  url ++ '\t' :: p ++ ['\n']

/-- Observable effect of one write_one call on the sink: whether the sink
was opened at all, and the lines appended. -/
structure WriteEffect where
  sinkOpened : Bool
  lines : List (List Char)
deriving DecidableEq

/-- Embedding of write_one in areq.py: parse the URL; when the result set
is empty return None without touching the sink; otherwise open the sink
for append and write one formatted line per resolved link. The sink
open is Modelled from the spec: the repository module lib.aiofiles is
not among the sources, so opening the shared sink for append either
succeeds, or raises a sink error which write_one does not catch. -/
def write_one (sinkOk : Bool) (url : List Char) (net : NetResult) : Except PyExc WriteEffect :=
  let res := parse url net
  if res = [] then .ok ⟨false, []⟩
  else if sinkOk then .ok ⟨true, res.map (mkLine url)⟩
  else .error .sinkError

/-- Lines a write_one call leaves in the sink: the appended lines on
success and nothing when it raises before writing. -/
def write_one_lines (sinkOk : Bool) (url : List Char) (net : NetResult) : List (List Char) :=
  match write_one sinkOk url net with
  | .ok eff => eff.lines
  | .error _ => []

/-- Outcome of one orchestrated run: either the orchestrator coroutine
returned, or it raised; both carry the lines present in the sink at that
point. -/
inductive RunOutcome where
  | completed (lines : List (List Char))
  | crashed (exc : PyExc) (lines : List (List Char))
deriving DecidableEq

/-- Lines present in the sink after a run, whether or not it crashed. -/
def runLines : RunOutcome → List (List Char)
  | .completed l => l
  | .crashed _ l => l

/-- Runs the freshly created coroutines of one gather call in creation
order, accumulating sink lines; the first uncaught exception aborts the
gather and surfaces, leaving the lines written so far in the sink. -/
def runAll (env : List Char → NetResult) (sinkOk : Bool) :
    List (List Char × Bool) → List (List Char) →
    Except (PyExc × List (List Char)) (List (List Char))
  | [], out => .ok out
  | (u, _) :: ts, out =>
    match write_one sinkOk u (env u) with
    | .error e => .error (e, out)
    | .ok eff => runAll env sinkOk ts (out ++ eff.lines)

/-- Embedding of the loop of bulk_crawl_and_write in areq.py, which
appends the next write_one coroutine to the task list and then awaits
asyncio.gather over the whole accumulated list inside the loop body. A
coroutine is awaitable once: when a gather call receives a coroutine
that an earlier gather already awaited, the event loop raises the reuse
runtime error; the freshly created coroutine of that iteration is then
cancelled at its first suspension point, the network round trip, and so
appends nothing. The second component of a task records whether it has
already been awaited. -/
def bulkLoop (env : List Char → NetResult) (sinkOk : Bool) :
    List (List Char) → List (List Char × Bool) → List (List Char) → RunOutcome
  | [], _, out => .completed out
  | url :: rest, tasks, out =>
    let tasks2 := tasks ++ [(url, false)]
    if tasks2.any (fun t => t.2) then .crashed .reuseCoroutine out
    else
      match runAll env sinkOk tasks2 out with
      | .error (e, out2) => .crashed e out2
      | .ok out2 => bulkLoop env sinkOk rest (tasks2.map (fun t => (t.1, true))) out2

/-- Embedding of bulk_crawl_and_write in areq.py over a list of seed URLs
in iteration order, starting with no tasks and an empty sink tail. -/
def bulk_crawl_and_write (env : List Char → NetResult) (sinkOk : Bool)
    (urls : List (List Char)) : RunOutcome :=
  bulkLoop env sinkOk urls [] []

/-- Orchestration events of bulk_crawl_and_write: creating one pipeline
coroutine for a URL, and awaiting gather over the accumulated task list
of the given size. -/
inductive OrchEvent where
  | launch (url : List Char)
  | awaitTasks (count : Nat)
deriving DecidableEq, BEq

/-- Event trace of the loop of bulk_crawl_and_write as written in
areq.py: each iteration appends one coroutine and then awaits gather over
the whole accumulated list. -/
def bulkEventsLoop : List (List Char) → Nat → List OrchEvent
  | [], _ => []
  | u :: rest, n => .launch u :: .awaitTasks (n + 1) :: bulkEventsLoop rest (n + 1)

/-- Event trace of bulk_crawl_and_write as written in areq.py. -/
def bulkEvents (urls : List (List Char)) : List OrchEvent :=
  bulkEventsLoop urls 0

/-- Orchestration trace following the words of the specification: launch
every pipeline first, then await them together exactly once. Stated for
comparison with the trace of the code. -/
def bulkEventsIntended (urls : List (List Char)) : List OrchEvent :=
  urls.map .launch ++ [.awaitTasks urls.length]

/-- Temporal events of one pipeline in the order the statements of parse
and write_one execute: the fetch starts, then either fails or returns,
extraction completes on a successful fetch, and only then is the sink
opened and each line written. -/
inductive PipeEvent where
  | fetchStart
  | fetchOk
  | fetchFail
  | extractDone
  | openSink
  | writeLine (line : List Char)
  | closeSink
deriving DecidableEq

/-- Event trace of one pipeline, following the statement order of parse
and write_one in areq.py: fetch, then extraction, then, for a nonempty
result set, the sink open and the write loop. -/
def pipelineTrace (sinkOk : Bool) (url : List Char) (net : NetResult) : List PipeEvent :=
  match fetch_html net with
  | .error _ => [.fetchStart, .fetchFail]
  | .ok html =>
    let res := extractLinks url html
    if res = [] then [.fetchStart, .fetchOk, .extractDone]
    else if sinkOk then
      [.fetchStart, .fetchOk, .extractDone, .openSink]
        ++ res.map (fun p => .writeLine (mkLine url p)) ++ [.closeSink]
    else [.fetchStart, .fetchOk, .extractDone, .openSink]

/-- Sink operations a pipeline can perform, tagged with the pipeline
identity; lock operations are in the vocabulary so that their absence
from the trace of write_one is expressible. -/
inductive SinkOp where
  | lockAcquire
  | lockRelease
  | openSink (pid : Nat)
  | closeSink (pid : Nat)
  | emit (pid : Nat) (line : List Char)
deriving DecidableEq, BEq

/-- Sink-operation trace of one write_one call as written in areq.py:
no lock is acquired or released; for a nonempty result set the sink is
opened and one line is emitted per resolved link, with an await, hence a
possible suspension, between consecutive operations. Modelled from the
spec: the sink writes of the repository module lib.aiofiles suspend, so
any other runnable pipeline may be scheduled between two operations. -/
def write_one_sinkOps (pid : Nat) (url : List Char) (net : NetResult) : List SinkOp :=
  let res := parse url net
  if res = [] then []
  else .openSink pid :: res.map (fun p => .emit pid (mkLine url p)) ++ [.closeSink pid]

/-- Decides whether a sink operation is not a lock operation. -/
def noLockOp : SinkOp → Bool
  | .lockAcquire => false
  | .lockRelease => false
  | _ => true

/-- Decides whether the third list is an interleaving of the first two,
preserving the relative order of each. -/
def isMerge [BEq α] : List α → List α → List α → Bool
  | [], [], [] => true
  | _, _, [] => false
  | xs, ys, z :: zs =>
    (match xs with
     | x :: xs2 => x == z && isMerge xs2 ys zs
     | [] => false)
    ||
    (match ys with
     | y :: ys2 => y == z && isMerge xs ys2 zs
     | [] => false)

/-- Pipeline identities of the emitted lines of a sink trace, in order. -/
def emitPids (trace : List SinkOp) : List Nat :=
  trace.filterMap (fun op =>
    match op with
    | .emit pid _ => some pid
    | _ => none)

/-- Decides whether the occurrences of one pipeline identity form one
contiguous block in a list of identities. -/
def contiguousFor (pid : Nat) (ps : List Nat) : Bool :=
  ((ps.dropWhile (fun q => !(q == pid))).dropWhile (fun q => q == pid)).all
    (fun q => !(q == pid))

/-- Header line the main block writes to the output file before the run
starts: the two column names separated by a tab, newline terminated. -/
def headerLine : List Char :=
  str "source_url\tparsed_url\n"

/-- Content of the output file after the main block of areq.py runs: the
header is written first, once, before any pipeline starts, and the run
appends its data lines after it. Modelled from the spec: the repository
module lib.aiofiles is not among the sources, so the sink handle the run
appends to is the output file the header was written to. -/
def scriptContent (env : List Char → NetResult) (sinkOk : Bool)
    (urls : List (List Char)) : List (List Char) :=
  headerLine :: runLines (bulk_crawl_and_write env sinkOk urls)

/-- Seed URL used in concrete evaluations. -/
def urlA : List Char := str "http://a.test/"

/-- Second seed URL used in concrete evaluations. -/
def urlZ : List Char := str "http://z.test/"

/-- Page body for the first seed URL, holding two anchor references. -/
def bodyA : List Char :=
  str "<p><a href=\"/b\">one</a><a href=\"http://a.test/c\">two</a></p>"

/-- Page body for the second seed URL, holding one anchor reference. -/
def bodyZ : List Char := str "<a href=\"/z\">z</a>"

/-- Page body with no anchor reference at all. -/
def plainBody : List Char := str "<p>no anchors here</p>"

/-- First data line of the first pipeline in the concrete evaluations. -/
def lineA1 : List Char := mkLine urlA (str "http://a.test/b")

/-- Second data line of the first pipeline in the concrete evaluations. -/
def lineA2 : List Char := mkLine urlA (str "http://a.test/c")

/-- Only data line of the second pipeline in the concrete evaluations. -/
def lineZ1 : List Char := mkLine urlZ (str "http://z.test/z")

/-- Network environment in which both seed URLs fetch successfully. -/
def envGood : List Char → NetResult := fun u =>
  if u = urlA then .response 200 bodyA
  else if u = urlZ then .response 200 bodyZ
  else .response 404 []

/-- Network environment in which the first seed URL fetches successfully
and every other URL fails with a server error status. -/
def envOneBad : List Char → NetResult := fun u =>
  if u = urlA then .response 200 bodyA else .response 500 []

/-- Network environment in which every fetch fails at transport level. -/
def envAllFail : List Char → NetResult := fun _ => .transportFail

/-- Sink-operation trace of the first concrete pipeline. -/
def traceA : List SinkOp := write_one_sinkOps 1 urlA (.response 200 bodyA)

/-- Sink-operation trace of the second concrete pipeline. -/
def traceZ : List SinkOp := write_one_sinkOps 2 urlZ (.response 200 bodyZ)

/-- A schedule of the two concrete pipelines in which the single line of
the second pipeline is written between the two lines of the first. -/
def badTrace : List SinkOp :=
  [.openSink 1, .emit 1 lineA1, .openSink 2, .emit 2 lineZ1,
   .emit 1 lineA2, .closeSink 1, .closeSink 2]

/-- One extraction step adds exactly the links that resolve. -/
theorem mem_addLink (url acc l t) :
    t ∈ addLink url acc l ↔ t ∈ acc ∨ urljoin url l = Except.ok t := by
  unfold addLink
  cases h : urljoin url l with
  | error e => simp
  | ok a =>
    by_cases ha : a ∈ acc
    · simp only [if_pos ha, Except.ok.injEq]
      constructor
      · exact fun h2 => Or.inl h2
      · rintro (h2 | rfl)
        · exact h2
        · exact ha
    · simp only [if_neg ha, List.mem_append, List.mem_singleton, Except.ok.injEq]
      exact or_congr Iff.rfl eq_comm

/-- Membership in the extraction fold: an URL is in the result exactly
when it was in the accumulator already or some link of the list resolves
to it. -/
theorem mem_foldl_addLink (url : List Char) :
    ∀ (links acc : List (List Char)) (t : List Char),
      t ∈ links.foldl (addLink url) acc ↔
        t ∈ acc ∨ ∃ l, l ∈ links ∧ urljoin url l = Except.ok t := by
  intro links
  induction links with
  | nil => intro acc t; simp
  | cons l0 ls ih =>
    intro acc t
    rw [List.foldl_cons, ih, mem_addLink]
    constructor
    · rintro ((h | h) | ⟨l, hl, hres⟩)
      · exact Or.inl h
      · exact Or.inr ⟨l0, List.mem_cons_self l0 ls, h⟩
      · exact Or.inr ⟨l, List.mem_cons_of_mem l0 hl, hres⟩
    · rintro (h | ⟨l, hl, hres⟩)
      · exact Or.inl (Or.inl h)
      · rcases List.mem_cons.mp hl with rfl | hl2
        · exact Or.inl (Or.inr hres)
        · exact Or.inr ⟨l, hl2, hres⟩

/-- Membership in the extraction loop of parse. -/
theorem mem_parseLinks (url : List Char) (links : List (List Char)) (t : List Char) :
    t ∈ parseLinks url links ↔ ∃ l, l ∈ links ∧ urljoin url l = Except.ok t := by
  unfold parseLinks
  rw [mem_foldl_addLink]
  simp

/-- One extraction step preserves freedom from duplicates. -/
theorem nodup_addLink (url : List Char) (acc : List (List Char)) (l : List Char)
    (h : acc.Nodup) : (addLink url acc l).Nodup := by
  unfold addLink
  cases urljoin url l with
  | error e => exact h
  | ok a =>
    by_cases ha : a ∈ acc
    · simpa [ha] using h
    · simp only [if_neg ha]
      refine List.Nodup.append h (List.nodup_singleton a) ?_
      intro x hx hxa
      rw [List.mem_singleton] at hxa
      subst hxa
      exact ha hx

/-- The extraction fold never produces duplicates. -/
theorem nodup_foldl_addLink (url : List Char) :
    ∀ (links acc : List (List Char)), acc.Nodup → (links.foldl (addLink url) acc).Nodup := by
  intro links
  induction links with
  | nil => intro acc h; simpa using h
  | cons l0 ls ih =>
    intro acc h
    rw [List.foldl_cons]
    exact ih _ (nodup_addLink url acc l0 h)

/-- Links that fail to resolve leave the extraction fold unchanged: the
fold over all links equals the fold over the resolvable ones. -/
theorem foldl_addLink_filter (url : List Char) :
    ∀ (links acc : List (List Char)),
      links.foldl (addLink url) acc
        = (links.filter (resolvesOk url)).foldl (addLink url) acc := by
  intro links
  induction links with
  | nil => intro acc; rfl
  | cons l0 ls ih =>
    intro acc
    by_cases h : resolvesOk url l0 = true
    · rw [List.filter_cons, if_pos h, List.foldl_cons, List.foldl_cons, ih]
    · have hid : addLink url acc l0 = acc := by
        unfold addLink
        unfold resolvesOk at h
        cases hj : urljoin url l0 with
        | error e => rfl
        | ok a => rw [hj] at h; simp at h
      rw [List.filter_cons, if_neg h, List.foldl_cons, hid, ih]

/-- When the fetch raises, parse returns the still-empty found set. -/
theorem parse_of_fetch_fail (url : List Char) (net : NetResult)
    (h : fetchOk net = false) : parse url net = [] := by
  unfold parse
  unfold fetchOk at h
  cases hf : fetch_html net with
  | error e => rfl
  | ok b => rw [hf] at h; simp at h

/-- A successful fetch of a body with no href capture yields an empty
result set. -/
theorem parse_empty_of_no_hrefs (url body : List Char) (st : Nat) (hst : st < 400)
    (hbody : hrefFindall body = []) : parse url (.response st body) = [] := by
  simp [parse, fetch_html, hst, extractLinks, parseLinks, hbody]

/-- On an empty result set write_one returns None without opening the
sink. -/
theorem write_one_of_parse_nil (sinkOk : Bool) (url : List Char) (net : NetResult)
    (h : parse url net = []) : write_one sinkOk url net = .ok ⟨false, []⟩ := by
  simp [write_one, h]

/-- Every line a write_one call leaves in the sink is the formatted line
of one of its resolved links. -/
theorem write_one_lines_mem (sinkOk : Bool) (url : List Char) (net : NetResult)
    (line : List Char) (h : line ∈ write_one_lines sinkOk url net) :
    ∃ p, p ∈ parse url net ∧ line = mkLine url p := by
  by_cases hres : parse url net = []
  · simp [write_one_lines, write_one, hres] at h
  · by_cases hs : sinkOk
    · simp [write_one_lines, write_one, hres, hs] at h
      rcases h with ⟨p, hp, hline⟩
      exact ⟨p, hp, hline.symm⟩
    · simp [write_one_lines, write_one, hres, hs] at h

/-- A member of a parse result certifies a successful fetch and an href
capture that resolves to it. -/
theorem parse_mem_net (u p : List Char) (net : NetResult) (hp : p ∈ parse u net) :
    ∃ st body, net = .response st body ∧ st < 400 ∧
      ∃ l, l ∈ hrefFindall body ∧ urljoin u l = Except.ok p := by
  cases net with
  | response st body =>
    by_cases hst : st < 400
    · refine ⟨st, body, rfl, hst, ?_⟩
      have hp2 : p ∈ extractLinks u body := by
        simpa [parse, fetch_html, hst] using hp
      have := (mem_parseLinks u (hrefFindall body) p).mp hp2
      exact this
    · exfalso
      simp [parse, fetch_html, hst] at hp
  | transportFail => exfalso; simp [parse, fetch_html] at hp
  | otherFail => exfalso; simp [parse, fetch_html] at hp

/-- Closed form of the run over a single seed URL: the single pipeline
runs to completion or its exception surfaces. -/
theorem bulk_one (env : List Char → NetResult) (sinkOk : Bool) (u : List Char) :
    bulk_crawl_and_write env sinkOk [u] =
      match write_one sinkOk u (env u) with
      | .error e => .crashed e []
      | .ok eff => .completed eff.lines := by
  cases hw : write_one sinkOk u (env u) with
  | error e => simp [bulk_crawl_and_write, bulkLoop, runAll, hw]
  | ok eff => simp [bulk_crawl_and_write, bulkLoop, runAll, hw]

/-- Closed form of the run over two or more seed URLs: the first pipeline
runs during the first loop iteration, and the gather of the second
iteration raises the reuse error on the already awaited first coroutine,
so no later pipeline ever writes. -/
theorem bulk_two_or_more (env : List Char → NetResult) (sinkOk : Bool)
    (u1 u2 : List Char) (rest : List (List Char)) :
    bulk_crawl_and_write env sinkOk (u1 :: u2 :: rest) =
      match write_one sinkOk u1 (env u1) with
      | .error e => .crashed e []
      | .ok eff => .crashed .reuseCoroutine eff.lines := by
  cases hw : write_one sinkOk u1 (env u1) with
  | error e => simp [bulk_crawl_and_write, bulkLoop, runAll, hw]
  | ok eff => simp [bulk_crawl_and_write, bulkLoop, runAll, hw]

/-- Every line in the sink after a run was written by the write_one call
of one of the seed URLs. -/
theorem run_lines_provenance (env : List Char → NetResult) (sinkOk : Bool)
    (urls : List (List Char)) (line : List Char)
    (h : line ∈ runLines (bulk_crawl_and_write env sinkOk urls)) :
    ∃ u, u ∈ urls ∧ line ∈ write_one_lines sinkOk u (env u) := by
  cases urls with
  | nil => simp [bulk_crawl_and_write, bulkLoop, runLines] at h
  | cons u1 rest =>
    cases rest with
    | nil =>
      rw [bulk_one] at h
      cases hw : write_one sinkOk u1 (env u1) with
      | error e => rw [hw] at h; simp [runLines] at h
      | ok eff =>
        rw [hw] at h
        simp only [runLines] at h
        refine ⟨u1, by simp, ?_⟩
        simpa [write_one_lines, hw] using h
    | cons u2 rest2 =>
      rw [bulk_two_or_more] at h
      cases hw : write_one sinkOk u1 (env u1) with
      | error e => rw [hw] at h; simp [runLines] at h
      | ok eff =>
        rw [hw] at h
        simp only [runLines] at h
        refine ⟨u1, by simp, ?_⟩
        simpa [write_one_lines, hw] using h

/-- C1: the claim states that sink access is serialized by an explicit
mutual-exclusion discipline spanning one pipeline's full set of emitted
lines. The code has no such discipline: the sink-operation trace of
write_one contains no lock operation at all, and consequently a schedule
exists that interleaves the single line of one pipeline between the two
lines of another, so the lines of pipeline one do not form a contiguous
block. -/
theorem write_one_unlocked_no_mutex :
    (∀ (pid : Nat) (url : List Char) (net : NetResult),
        (write_one_sinkOps pid url net).all noLockOp = true) ∧
    isMerge traceA traceZ badTrace = true ∧
    contiguousFor 1 (emitPids badTrace) = false := by
  refine ⟨?_, by decide, by decide⟩
  intro pid url net
  unfold write_one_sinkOps
  by_cases h : parse url net = []
  · simp [h]
  · rw [if_neg h, List.all_eq_true]
    intro op hop
    rcases List.mem_cons.mp hop with rfl | hop2
    · rfl
    rcases List.mem_append.mp hop2 with h3 | h3
    · rcases List.mem_map.mp h3 with ⟨p, hp, rfl⟩
      rfl
    · rcases List.mem_singleton.mp h3 with rfl
      rfl

/-- C2: the claim states that the orchestrator launches all pipelines
first and awaits them together once. The loop of bulk_crawl_and_write
instead awaits gather over the accumulated task list once per newly
appended task: on two seed URLs the code trace interleaves launches and
awaits, and differs from the launch-all-then-await trace the
specification prescribes. -/
theorem gather_inside_loop_serializes :
    bulkEvents [urlA, urlZ]
        = [.launch urlA, .awaitTasks 1, .launch urlZ, .awaitTasks 2] ∧
    bulkEventsIntended [urlA, urlZ]
        = [.launch urlA, .launch urlZ, .awaitTasks 2] ∧
    (bulkEvents [urlA, urlZ] == bulkEventsIntended [urlA, urlZ]) = false := by
  exact ⟨by decide, by decide, by decide⟩

/-- C3: the claim states that a run with exactly one failing fetch still
completes and every other URL's lines are present. The failure is indeed
caught inside parse, which returns the empty set, but with two seed URLs
the second loop iteration of bulk_crawl_and_write re-gathers the already
awaited first coroutine and the run crashes with the reuse runtime
error: with the failing URL first, the run aborts with no data line at
all, so the healthy URL's lines are absent; with the healthy URL first,
its lines are present yet the run still aborts instead of completing. -/
theorem one_failed_fetch_crashes_run :
    parse urlZ (envOneBad urlZ) = [] ∧
    bulk_crawl_and_write envOneBad true [urlZ, urlA] = .crashed .reuseCoroutine [] ∧
    bulk_crawl_and_write envOneBad true [urlA, urlZ]
        = .crashed .reuseCoroutine [lineA1, lineA2] := by
  exact ⟨by decide, by decide, by decide⟩

/-- C4: for a seed URL whose fetch succeeds with a body containing zero
href captures, write_one is a no-op: it writes zero lines and never
opens the sink, returning before any sink access. -/
theorem empty_extraction_never_opens_sink (sinkOk : Bool) (url body : List Char) (st : Nat)
    (hst : st < 400) (hbody : hrefFindall body = []) :
    write_one sinkOk url (.response st body) = .ok ⟨false, []⟩ :=
  write_one_of_parse_nil sinkOk url _ (parse_empty_of_no_hrefs url body st hst hbody)

/-- C4 witness: a successful fetch of a body without anchors writes
nothing and leaves the sink untouched. -/
theorem empty_extraction_never_opens_sink_witness :
    write_one true urlA (.response 200 plainBody) = .ok ⟨false, []⟩ :=
  empty_extraction_never_opens_sink true urlA plainBody 200 (by decide) (by decide)

/-- C5: every line ever written to the sink during a run belongs to some
seed URL whose fetch succeeded, and its target is the resolution of an
href capture literally present in that page's body against that page's
URL; moreover, in the event trace of one pipeline, any line write is
preceded by the successful fetch and the completed extraction, in that
order. -/
theorem writes_have_provenance_and_order :
    (∀ (env : List Char → NetResult) (sinkOk : Bool) (urls : List (List Char))
        (line : List Char),
        line ∈ runLines (bulk_crawl_and_write env sinkOk urls) →
        ∃ u, u ∈ urls ∧ ∃ st body, env u = .response st body ∧ st < 400 ∧
          ∃ l, l ∈ hrefFindall body ∧ ∃ t, urljoin u l = Except.ok t ∧ line = mkLine u t) ∧
    (∀ (sinkOk : Bool) (url : List Char) (net : NetResult) (l : List Char),
        PipeEvent.writeLine l ∈ pipelineTrace sinkOk url net →
        ∃ rest, pipelineTrace sinkOk url net =
            [.fetchStart, .fetchOk, .extractDone, .openSink] ++ rest ∧
          PipeEvent.writeLine l ∈ rest) := by
  constructor
  · intro env sinkOk urls line h
    obtain ⟨u, hu, hl⟩ := run_lines_provenance env sinkOk urls line h
    obtain ⟨p, hp, rfl⟩ := write_one_lines_mem sinkOk u (env u) _ hl
    obtain ⟨st, body, hnet, hst, l, hlm, hres⟩ := parse_mem_net u p (env u) hp
    exact ⟨u, hu, st, body, hnet, hst, l, hlm, p, hres, rfl⟩
  · intro sinkOk url net l h
    cases hf : fetch_html net with
    | error e => exfalso; simp [pipelineTrace, hf] at h
    | ok html =>
      by_cases hres : extractLinks url html = []
      · exfalso; simp [pipelineTrace, hf, hres] at h
      · by_cases hs : sinkOk
        · have htr : pipelineTrace sinkOk url net =
              [.fetchStart, .fetchOk, .extractDone, .openSink]
                ++ ((extractLinks url html).map (fun p => .writeLine (mkLine url p))
                  ++ [.closeSink]) := by
            simp [pipelineTrace, hf, hres, hs]
          refine ⟨_, htr, ?_⟩
          rw [htr] at h
          rcases List.mem_append.mp h with h2 | h2
          · exfalso; simp at h2
          · exact h2
        · exfalso; simp [pipelineTrace, hf, hres, hs] at h

/-- C5 witness: the first data line of the concrete single-URL run has a
provenance, and writes in the concrete pipeline trace come after fetch
and extraction. -/
theorem writes_have_provenance_and_order_witness :
    (∃ u, u ∈ [urlA] ∧ ∃ st body, envGood u = .response st body ∧ st < 400 ∧
        ∃ l, l ∈ hrefFindall body ∧ ∃ t, urljoin u l = Except.ok t ∧ lineA1 = mkLine u t) ∧
    (∃ rest, pipelineTrace true urlA (.response 200 bodyA) =
        [.fetchStart, .fetchOk, .extractDone, .openSink] ++ rest ∧
      PipeEvent.writeLine lineA1 ∈ rest) :=
  ⟨writes_have_provenance_and_order.1 envGood true [urlA] lineA1 (by decide),
   writes_have_provenance_and_order.2 true urlA (.response 200 bodyA) lineA1 (by decide)⟩

/-- C6: extraction is a deterministic function of its inputs, its result
carries no duplicate entries, and membership in the result depends only
on the href captures of the body and their resolution against the page
URL. -/
theorem extraction_deterministic_dedup (url body : List Char) :
    extractLinks url body = extractLinks url body ∧
    (extractLinks url body).Nodup ∧
    ∀ t, t ∈ extractLinks url body ↔
      ∃ l, l ∈ hrefFindall body ∧ urljoin url l = Except.ok t := by
  refine ⟨rfl, ?_, ?_⟩
  · exact nodup_foldl_addLink url (hrefFindall body) [] List.nodup_nil
  · intro t
    exact mem_parseLinks url (hrefFindall body) t

/-- C6 witness: the concrete extraction result is duplicate free and
contains the resolution of the first capture of the concrete body. -/
theorem extraction_deterministic_dedup_witness :
    (extractLinks urlA bodyA).Nodup ∧ str "http://a.test/b" ∈ extractLinks urlA bodyA :=
  ⟨(extraction_deterministic_dedup urlA bodyA).2.1,
   ((extraction_deterministic_dedup urlA bodyA).2.2 (str "http://a.test/b")).mpr
     ⟨str "/b", by decide, rfl⟩⟩

/-- C7: a captured reference that fails to resolve is skipped and the
extraction continues: the extraction over any capture list equals the
extraction over its resolvable captures only, and every resolvable
capture's target still appears in the result. -/
theorem unresolvable_refs_skipped (url : List Char) (links : List (List Char)) :
    parseLinks url links = parseLinks url (links.filter (resolvesOk url)) ∧
    ∀ t, t ∈ parseLinks url links ↔ ∃ l, l ∈ links ∧ urljoin url l = Except.ok t :=
  ⟨foldl_addLink_filter url links [], fun t => mem_parseLinks url links t⟩

/-- C7 witness: with a malformed reference between two well-formed ones,
the extraction equals the extraction over the resolvable references and
the later well-formed reference still resolves into the result. -/
theorem unresolvable_refs_skipped_witness :
    parseLinks (str "http://a.test/x/") [str "/b", str "http://[bad", str "c.html"]
        = parseLinks (str "http://a.test/x/")
            ([str "/b", str "http://[bad", str "c.html"].filter
              (resolvesOk (str "http://a.test/x/"))) ∧
    str "http://a.test/x/c.html"
        ∈ parseLinks (str "http://a.test/x/") [str "/b", str "http://[bad", str "c.html"] :=
  ⟨(unresolvable_refs_skipped (str "http://a.test/x/")
      [str "/b", str "http://[bad", str "c.html"]).1,
   ((unresolvable_refs_skipped (str "http://a.test/x/")
      [str "/b", str "http://[bad", str "c.html"]).2 (str "http://a.test/x/c.html")).mpr
     ⟨str "c.html", by decide, rfl⟩⟩

/-- C8: the output file starts with the header line, written once before
any pipeline runs, followed by zero or more data lines, each the tab
separated newline terminated record of one source and one target; and
when every fetch fails the file holds exactly the header line. -/
theorem output_header_then_records :
    (∀ (env : List Char → NetResult) (sinkOk : Bool) (urls : List (List Char)),
        ∃ rest, scriptContent env sinkOk urls = headerLine :: rest ∧
          ∀ line ∈ rest, ∃ u t, line = mkLine u t) ∧
    (∀ (env : List Char → NetResult) (sinkOk : Bool) (urls : List (List Char)),
        (∀ u ∈ urls, fetchOk (env u) = false) →
        scriptContent env sinkOk urls = [headerLine]) := by
  constructor
  · intro env sinkOk urls
    refine ⟨runLines (bulk_crawl_and_write env sinkOk urls), rfl, ?_⟩
    intro line hline
    obtain ⟨u, _, hl⟩ := run_lines_provenance env sinkOk urls line hline
    obtain ⟨p, _, rfl⟩ := write_one_lines_mem sinkOk u (env u) _ hl
    exact ⟨u, p, rfl⟩
  · intro env sinkOk urls hall
    have hruns : runLines (bulk_crawl_and_write env sinkOk urls) = [] := by
      cases urls with
      | nil => simp [bulk_crawl_and_write, bulkLoop, runLines]
      | cons u1 rest =>
        have hw1 : write_one sinkOk u1 (env u1) = .ok ⟨false, []⟩ :=
          write_one_of_parse_nil sinkOk u1 _
            (parse_of_fetch_fail u1 _ (hall u1 (List.mem_cons_self u1 rest)))
        cases rest with
        | nil => rw [bulk_one, hw1]; rfl
        | cons u2 rest2 => rw [bulk_two_or_more, hw1]; rfl
    simp [scriptContent, hruns]

/-- C8 witness: the concrete successful run starts with the header line
and all later lines are records, and the concrete all-failing run
produces exactly the header line. -/
theorem output_header_then_records_witness :
    (∃ rest, scriptContent envGood true [urlA] = headerLine :: rest ∧
        ∀ line ∈ rest, ∃ u t, line = mkLine u t) ∧
    scriptContent envAllFail true [urlA, urlZ] = [headerLine] :=
  ⟨output_header_then_records.1 envGood true [urlA],
   output_header_then_records.2 envAllFail true [urlA, urlZ] (by decide)⟩

/-- C9: a sink failure inside the write step is not swallowed: write_one
has no handler around the sink open, so the sink error escapes the call,
and when the pipeline that reaches its write step hits it, the error
propagates through gather and the orchestrator aborts with the surfaced
sink error rather than completing with empty output. -/
theorem sink_error_propagates :
    (∀ (url : List Char) (net : NetResult), parse url net ≠ [] →
        write_one false url net = .error .sinkError) ∧
    (∀ (env : List Char → NetResult) (rest : List (List Char)) (u0 : List Char),
        parse u0 (env u0) ≠ [] →
        bulk_crawl_and_write env false (u0 :: rest) = .crashed .sinkError []) := by
  constructor
  · intro url net h
    simp [write_one, h]
  · intro env rest u0 h
    have hw : write_one false u0 (env u0) = .error .sinkError := by simp [write_one, h]
    cases rest with
    | nil => rw [bulk_one, hw]
    | cons u1 rest2 => rw [bulk_two_or_more, hw]

/-- C9 witness: with an unopenable sink and a page with links, write_one
raises the sink error and the concrete run aborts with it surfaced. -/
theorem sink_error_propagates_witness :
    write_one false urlA (.response 200 bodyA) = .error .sinkError ∧
    bulk_crawl_and_write envGood false [urlA, urlZ] = .crashed .sinkError [] :=
  ⟨sink_error_propagates.1 urlA (.response 200 bodyA) (by decide),
   sink_error_propagates.2 envGood [urlZ] urlA (by decide)⟩

/-- C10: a failed fetch, of any exception kind, is indistinguishable at
the write step from a successful fetch of a page with zero href
captures: write_one returns the same None result in both cases, writing
nothing and never opening the sink. -/
theorem fetch_failure_looks_like_empty_page (sinkOk : Bool) (url body : List Char)
    (net : NetResult) (st : Nat) (hfail : fetchOk net = false) (hst : st < 400)
    (hbody : hrefFindall body = []) :
    write_one sinkOk url net = write_one sinkOk url (.response st body) ∧
    write_one sinkOk url net = .ok ⟨false, []⟩ := by
  have h1 : write_one sinkOk url net = .ok ⟨false, []⟩ :=
    write_one_of_parse_nil sinkOk url net (parse_of_fetch_fail url net hfail)
  have h2 : write_one sinkOk url (.response st body) = .ok ⟨false, []⟩ :=
    write_one_of_parse_nil sinkOk url _ (parse_empty_of_no_hrefs url body st hst hbody)
  exact ⟨h1.trans h2.symm, h1⟩

/-- C10 witness: a non-aiohttp fetch exception and a successful fetch of
an anchor-free page give write_one results equal to each other and to the
silent no-op. -/
theorem fetch_failure_looks_like_empty_page_witness :
    write_one true urlA .otherFail = write_one true urlA (.response 200 plainBody) ∧
    write_one true urlA .otherFail = .ok ⟨false, []⟩ :=
  fetch_failure_looks_like_empty_page true urlA plainBody .otherFail 200
    (by decide) (by decide) (by decide)

end Areq
